import Mathlib

/-!
Shallow embedding of the BhashaConnect backend routers
(`src/backend/routes/schemes.js` — which also holds the jobs router,
`src/backend/routes/training.js` — which also holds the marketplace router,
`src/backend/models/*.js`, `src/unnamed/part_000` — `backend/config/database.js`
and the `Marketplace` model, `src/unnamed/part_001` — the server wiring).

Conventions of the embedding:
* a Mongo collection is a `List` of records; `_id` values are `Nat`;
  `createdAt` timestamps are `Nat` (the `updatedAt` twin is elided, no claim
  touches it);
* `Model.find(filter)` is `List.filter`, `Model.findById` is `List.find?`,
  `Model.countDocuments(filter)` is `(List.filter _).length`,
  `findByIdAndUpdate` maps over the list replacing the matching record,
  `findByIdAndDelete` filters it out;
* `.sort(\x7bcreatedAt: -1\x7d)` is an insertion sort descending on `createdAt`
  (Mongo leaves the order of ties unspecified; the sort here is one faithful
  choice), `.skip`/`.limit` are `List.drop`/`List.take`;
* `.populate('createdBy','name')` followed by the handlers'
  `created_by_name: x.createdBy?.name` enrichment is a lookup in a `List User`;
* the storage engine's `$regex pat $options i` operator (always fed a raw
  query-parameter string by these routers) is modelled as case-insensitive
  substring containment, which is its behaviour on every pattern free of
  regex metacharacters;
* a JSON response is a structure whose `pagination : Option Pagination`
  field mirrors the presence or absence of the `pagination` key in the
  response's `data` object;
* `req.query` is an association list of strings; JavaScript truthiness of a
  query value (`if (category) ...`) means: present and not the empty string;
  the numeric coercion of `page`/`limit` is modelled for decimal numerals
  (the only inputs any claim quantifies over), other strings fall outside
  the modelled domain.
-/

/-- Boolean prefix test on character lists. -/
def isPrefixB : List Char → List Char → Bool
  | [], _ => true
  | _ :: _, [] => false
  | a :: as, b :: bs => a == b && isPrefixB as bs

/-- Boolean contiguous-substring test on character lists. -/
def isSubList (pat hay : List Char) : Bool :=
  match hay with
  | [] => pat.isEmpty
  | _ :: bs => isPrefixB pat hay || isSubList pat bs

/-- Lower-case a string character by character (model of the `i` regex flag). -/
def lowerStr (s : String) : List Char :=
  s.toList.map Char.toLower

/-- Case-insensitive substring containment: model of the storage engine's
`\x7bfield: \x7b$regex: pat, $options: 'i'\x7d\x7d` operator on a metacharacter-free
pattern. -/
def ciContains (hay pat : String) : Bool :=
  isSubList (lowerStr pat) (lowerStr hay)

/-- Plain (case-sensitive) substring containment, used to state that a
validation message names a field. -/
def strIncl (needle hay : String) : Bool :=
  isSubList needle.toList hay.toList

/-- JavaScript truthiness of an optional query-parameter value: the router
guards every filter with `if (param)`, which rejects both an absent key and
the empty string. -/
def jsTruthy (v : Option String) : Bool :=
  match v with
  | none => false
  | some s => s ≠ ""

/-- Simplified model of the validation library's `Joi.string().uri()` rule
(RFC 3986 shape): a letter-led scheme of letters, digits, `+`, `-`, `.`,
then `:`, then a nonempty remainder. -/
def isValidUri (s : String) : Bool :=
  match s.toList.splitOn ':' with
  | scheme :: rest₁ :: rest =>
      (match scheme with
       | c :: cs => c.isAlpha && cs.all (fun d => d.isAlphanum || d = '+' || d = '-' || d = '.')
       | [] => false)
      && (rest₁ :: rest).any (fun l => l ≠ [])
  | _ => false

/-- Pagination metadata object produced by the List handlers. -/
structure Pagination where
  currentPage : Nat
  totalPages : Nat
  totalItems : Nat
  itemsPerPage : Nat
deriving DecidableEq, Repr

/-- A record as shipped in a response: the stored document together with the
`created_by_name` enrichment (`populate('createdBy','name')` plus
`created_by_name: x.createdBy?.name`; `none` when the owner id resolves to
no user). -/
structure Enriched (α : Type) where
  item : α
  created_by_name : Option String
deriving DecidableEq, Repr

/-- Response shape of the list/search/by-category endpoints:
`\x7bsuccess, data:\x7b<records>, pagination?\x7d\x7d` on 200, `\x7bsuccess:false, message\x7d`
on 500.  `pagination = none` mirrors a `data` object without a `pagination`
key. -/
structure ListResp (α : Type) where
  status : Nat
  success : Bool
  message : Option String
  records : List (Enriched α)
  pagination : Option Pagination
deriving DecidableEq, Repr

/-- Response shape of the get-by-id/create/update/delete endpoints. -/
structure MutResp (α : Type) where
  status : Nat
  success : Bool
  message : Option String
  errors : List String
  record : Option (Enriched α)
deriving DecidableEq, Repr

/-- An authenticated caller as placed on `req.user` by the auth middleware:
identity (`_id`), display name, role string. -/
structure User where
  id : Nat
  name : String
  role : String
deriving DecidableEq, Repr

/-- Owner-name lookup backing `.populate('createdBy', 'name')`. -/
def populateName (users : List User) (ownerId : Nat) : Option String :=
  (users.find? (fun u => u.id == ownerId)).map User.name

/-- Insert one element into a list already sorted descending by `key`. -/
def insertDesc (key : α → Nat) (a : α) : List α → List α
  | [] => [a]
  | b :: bs => if key b ≤ key a then a :: b :: bs else b :: insertDesc key a bs

/-- Insertion sort, descending by `key`: model of `.sort(\x7bcreatedAt: -1\x7d)`. -/
def sortDesc (key : α → Nat) : List α → List α
  | [] => []
  | a :: as => insertDesc key a (sortDesc key as)

theorem mem_insertDesc (key : α → Nat) (a x : α) (l : List α) :
    x ∈ insertDesc key a l ↔ x = a ∨ x ∈ l := by
  induction l with
  | nil => simp [insertDesc]
  | cons b bs ih =>
      simp only [insertDesc]
      split
      · simp
      · simp [ih]
        tauto

theorem mem_sortDesc (key : α → Nat) (x : α) (l : List α) :
    x ∈ sortDesc key l ↔ x ∈ l := by
  induction l with
  | nil => simp [sortDesc]
  | cons a as ih => simp [sortDesc, mem_insertDesc, ih]

theorem length_insertDesc (key : α → Nat) (a : α) (l : List α) :
    (insertDesc key a l).length = l.length + 1 := by
  induction l with
  | nil => simp [insertDesc]
  | cons b bs ih =>
      simp only [insertDesc]
      split
      · simp
      · simp [ih]

theorem length_sortDesc (key : α → Nat) (l : List α) :
    (sortDesc key l).length = l.length := by
  induction l with
  | nil => rfl
  | cons a as ih => simp [sortDesc, length_insertDesc, ih]

/-- Lookup of a key in the `req.query` association list. -/
def qlookup (q : List (String × String)) (k : String) : Option String :=
  (q.find? (fun p => p.fst == k)).map Prod.snd

/-- Numeric query parameter with a default: `const \x7b page = 1 \x7d = req.query`
followed by the router's numeric use of the value.  Defined (`some`) exactly
on an absent key or a decimal numeral — the domain the claims quantify over. -/
def natParam (q : List (String × String)) (k : String) (dflt : Nat) : Option Nat :=
  match qlookup q k with
  | none => some dflt
  | some s => s.toNat?

/-!  Validator: model of the `Joi` object schemas declared at the top of each
router.  Field rules (required/min/max/enum/uri) are taken from the schema
declarations in the source; per the spec's validator contract (§4.4) a
failing validation yields an ordered list of human-readable messages, one
per failing field, in schema field order. -/

/-- One string field's rule set inside a `Joi.object` schema. -/
structure StrRule where
  field : String
  required : Bool
  minLen : Nat
  maxLen : Option Nat
  enumVals : Option (List String)
  mustUri : Bool
deriving DecidableEq, Repr

/-- Render a field name the way the validation library quotes it. -/
def quoted (f : String) : String := "\"" ++ f ++ "\""

/-- True when the rule carries an allow-list (`Joi.valid(...)`) that the
value is outside of. -/
def enumViolated (r : StrRule) (s : String) : Bool :=
  match r.enumVals with
  | some es => !(es.contains s)
  | none => false

/-- True when the rule carries a `max` bound the value's length exceeds. -/
def maxViolated (r : StrRule) (s : String) : Bool :=
  match r.maxLen with
  | some m => decide (m < s.length)
  | none => false

/-- Check one optional string value against its rule; `some msg` is the
first violated rule's message (at most one message per field). -/
def checkStr (r : StrRule) (v : Option String) : Option String :=
  match v with
  | none => if r.required then some (quoted r.field ++ " is required") else none
  | some s =>
    if s = "" then some (quoted r.field ++ " is not allowed to be empty")
    else if enumViolated r s then
      some (quoted r.field ++ " must be one of the allowed values")
    else if s.length < r.minLen then
      some (quoted r.field ++ (" length must be at least " ++ toString r.minLen ++
            " characters long"))
    else if maxViolated r s then
      some (quoted r.field ++ (" length must be less than or equal to " ++
            toString (r.maxLen.getD 0) ++ " characters long"))
    else if r.mustUri && !(isValidUri s) then
      some (quoted r.field ++ " must be a valid uri")
    else none

theorem isPrefixB_append (l rest : List Char) : isPrefixB l (l ++ rest) = true := by
  induction l with
  | nil => rfl
  | cons a as ih => simp [isPrefixB, ih]

theorem isSubList_of_prefix (pat hay : List Char) (h : isPrefixB pat hay = true) :
    isSubList pat hay = true := by
  cases hay with
  | nil =>
      cases pat with
      | nil => rfl
      | cons a as => simp [isPrefixB] at h
  | cons b bs => simp [isSubList, h]

theorem strIncl_left_append (a b : String) : strIncl a (a ++ b) = true := by
  have hd : (a ++ b).data = a.data ++ b.data := String.data_append a b
  unfold strIncl
  show isSubList a.data (a ++ b).data = true
  rw [hd]
  exact isSubList_of_prefix _ _ (isPrefixB_append _ _)

/-- Every message produced by `checkStr` names its field (the quoted field
name occurs in the message). -/
theorem checkStr_names (r : StrRule) (v : Option String) (m : String)
    (h : checkStr r v = some m) : strIncl (quoted r.field) m = true := by
  cases v with
  | none =>
      simp only [checkStr] at h
      split at h
      · cases h; exact strIncl_left_append _ _
      · cases h
  | some s =>
      simp only [checkStr] at h
      split at h
      · cases h; exact strIncl_left_append _ _
      split at h
      · cases h; exact strIncl_left_append _ _
      split at h
      · cases h; exact strIncl_left_append _ _
      split at h
      · cases h; exact strIncl_left_append _ _
      split at h
      · cases h; exact strIncl_left_append _ _
      cases h

/-- A required rule flags an absent value. -/
theorem checkStr_none (r : StrRule) (h : r.required = true) :
    checkStr r none = some (quoted r.field ++ " is required") := by
  simp [checkStr, h]

theorem reduceOption_ne_nil_of_mem {l : List (Option β)} {a : β}
    (h : some a ∈ l) : l.reduceOption ≠ [] := by
  intro he
  have : a ∈ l.reduceOption := List.reduceOption_mem_iff.mpr h
  rw [he] at this
  exact (List.not_mem_nil a) this

/-!  Government schemes: `src/backend/models/Scheme.js` and the schemes router,
`src/backend/routes/schemes.js` lines 1-301. -/

/-- A stored scheme document (model `Scheme.js`). -/
structure Scheme where
  id : Nat
  title : String
  description : String
  eligibility : String
  link : String
  language : String
  category : String
  createdBy : Nat
  createdAt : Nat
deriving DecidableEq, Repr

/-- The raw create/update request body for a scheme, as the `Joi` schema
sees it: each schema field either absent or a string. -/
structure SchemeBody where
  title : Option String
  description : Option String
  eligibility : Option String
  link : Option String
  language : Option String
  category : Option String
deriving DecidableEq, Repr

/-- The validated value object produced on validation success. -/
structure SchemePayload where
  title : String
  description : String
  eligibility : String
  link : String
  language : String
  category : String
deriving DecidableEq, Repr

/-- `schemeSchema` (schemes.js lines 9-16): title 3..255, description min 10,
eligibility min 5, link uri, language 2..50, category max 100, all required. -/
def schemeRules : List StrRule :=
  [⟨"title", true, 3, some 255, none, false⟩,
   ⟨"description", true, 10, none, none, false⟩,
   ⟨"eligibility", true, 5, none, none, false⟩,
   ⟨"link", true, 0, none, none, true⟩,
   ⟨"language", true, 2, some 50, none, false⟩,
   ⟨"category", true, 0, some 100, none, false⟩]

/-- Per-field validation outcomes for a scheme body, in schema field order. -/
def schemeChecks (b : SchemeBody) : List (Option String) :=
  [checkStr ⟨"title", true, 3, some 255, none, false⟩ b.title,
   checkStr ⟨"description", true, 10, none, none, false⟩ b.description,
   checkStr ⟨"eligibility", true, 5, none, none, false⟩ b.eligibility,
   checkStr ⟨"link", true, 0, none, none, true⟩ b.link,
   checkStr ⟨"language", true, 2, some 50, none, false⟩ b.language,
   checkStr ⟨"category", true, 0, some 100, none, false⟩ b.category]

/-- The itemized messages of a failing scheme validation
(`error.details.map(detail => detail.message)`). -/
def schemeErrors (b : SchemeBody) : List String :=
  (schemeChecks b).reduceOption

/-- `schemeSchema.validate(req.body)`.  When the error list is empty every
(required) field is present, so the `getD` defaults are never reached. -/
def validateScheme (b : SchemeBody) : Except (List String) SchemePayload :=
  if schemeErrors b = [] then
    .ok ⟨b.title.getD "", b.description.getD "", b.eligibility.getD "",
         b.link.getD "", b.language.getD "", b.category.getD ""⟩
  else .error (schemeErrors b)

/-- Filter object built by `GET /` (schemes.js lines 23-30): `language`
exact, `category` case-insensitive substring, each only when truthy. -/
def schemeFilter (language category : Option String) (s : Scheme) : Bool :=
  (match language with
   | some l => if l = "" then true else s.language == l
   | none => true)
  && (match category with
      | some c => if c = "" then true else ciContains s.category c
      | none => true)

/-- Owner-name enrichment of one scheme. -/
def enrichScheme (users : List User) (s : Scheme) : Enriched Scheme :=
  ⟨s, populateName users s.createdBy⟩

/-- `GET /` (schemes.js lines 19-67): filter, sort by `createdAt`
descending, window by `skip = (page-1)*limit` and `limit`, and report
pagination metadata with `totalPages = Math.ceil(totalCount/limit)`
(equal to `(totalCount + limit - 1) / limit` in `Nat` for `limit ≥ 1`). -/
def schemesList (db : List Scheme) (users : List User)
    (language category : Option String) (page limit : Nat) : ListResp Scheme :=
  let matching := db.filter (schemeFilter language category)
  let pageRecs := ((sortDesc Scheme.createdAt matching).drop ((page - 1) * limit)).take limit
  ⟨200, true, none, pageRecs.map (enrichScheme users),
   some ⟨page, (matching.length + limit - 1) / limit, matching.length, limit⟩⟩

/-- `POST /` handler body (schemes.js lines 103-141), after the
`authenticateToken, requireRole(['admin'])` middleware: validate, then
persist with `createdBy` from the caller.  `nextId`/`now` stand for the
storage-assigned `_id` and `createdAt`. -/
def schemesCreate (db : List Scheme) (users : List User) (u : User)
    (nextId now : Nat) (b : SchemeBody) : MutResp Scheme × List Scheme :=
  match validateScheme b with
  | .error es => (⟨400, false, some "Validation error", es, none⟩, db)
  | .ok v =>
      let s : Scheme := ⟨nextId, v.title, v.description, v.eligibility, v.link,
                         v.language, v.category, u.id, now⟩
      (⟨201, true, some "Scheme created successfully", [], some (enrichScheme users s)⟩,
       db ++ [s])

/-- `findByIdAndUpdate(id, value)`: full replacement of the validated
fields, id/owner/creation-time untouched. -/
def applySchemeUpdate (v : SchemePayload) (s : Scheme) : Scheme :=
  ⟨s.id, v.title, v.description, v.eligibility, v.link, v.language, v.category,
   s.createdBy, s.createdAt⟩

/-- `PUT /:id` handler body (schemes.js lines 144-186): validate, check
existence, then update — with no ownership comparison. -/
def schemesUpdate (db : List Scheme) (users : List User) (u : User)
    (id : Nat) (b : SchemeBody) : MutResp Scheme × List Scheme :=
  match validateScheme b with
  | .error es => (⟨400, false, some "Validation error", es, none⟩, db)
  | .ok v =>
      match db.find? (fun s => s.id == id) with
      | none => (⟨404, false, some "Scheme not found", [], none⟩, db)
      | some s =>
          (⟨200, true, some "Scheme updated successfully", [],
            some (enrichScheme users (applySchemeUpdate v s))⟩,
           db.map (fun t => if t.id == id then applySchemeUpdate v t else t))

/-- `DELETE /:id` handler body (schemes.js lines 189-215): check existence,
then remove — with no ownership comparison. -/
def schemesDelete (db : List Scheme) (id : Nat) : MutResp Scheme × List Scheme :=
  match db.find? (fun s => s.id == id) with
  | none => (⟨404, false, some "Scheme not found", [], none⟩, db)
  | some _ =>
      (⟨200, true, some "Scheme deleted successfully", [], none⟩,
       db.filter (fun t => !(t.id == id)))

/-- Modelled from the spec: `requireRole` lives in
`backend/middleware/auth.js`, which is not included under `src/` (only its
callers are).  Per the spec's error taxonomy (§7, ForbiddenError) it rejects
a caller whose role is outside the allowed list with a 403 before the
handler runs. -/
def requireRole (roles : List String) (u : User) : Bool :=
  roles.contains u.role

/-- The 403 the role middleware produces (spec §7 ForbiddenError). -/
def roleForbidden (α : Type) : MutResp α :=
  ⟨403, false, some "Forbidden", [], none⟩

/-- `PUT /:id` route: `requireRole(['admin'])` middleware then the handler. -/
def schemesUpdateRoute (db : List Scheme) (users : List User) (u : User)
    (id : Nat) (b : SchemeBody) : MutResp Scheme × List Scheme :=
  if requireRole ["admin"] u then schemesUpdate db users u id b
  else (roleForbidden Scheme, db)

/-- `DELETE /:id` route: `requireRole(['admin'])` middleware then the handler. -/
def schemesDeleteRoute (db : List Scheme) (u : User) (id : Nat) :
    MutResp Scheme × List Scheme :=
  if requireRole ["admin"] u then schemesDelete db id
  else (roleForbidden Scheme, db)

/-- Search filter of `GET /search/:query` (schemes.js lines 264-274):
case-insensitive substring of `query` in title OR description OR category,
AND-ed with the optional exact `language` filter. -/
def schemeSearchFilter (query : String) (language : Option String) (s : Scheme) : Bool :=
  (ciContains s.title query || ciContains s.description query || ciContains s.category query)
  && (match language with
      | some l => if l = "" then true else s.language == l
      | none => true)

/-- `GET /search/:query` (schemes.js lines 258-299): same sort/skip/limit
windowing as List, but the response object (lines 283-291) carries only
`results` — its `data` has no `pagination` key. -/
def schemesSearch (db : List Scheme) (users : List User) (query : String)
    (language : Option String) (page limit : Nat) : ListResp Scheme :=
  let matching := db.filter (schemeSearchFilter query language)
  let pageRecs := ((sortDesc Scheme.createdAt matching).drop ((page - 1) * limit)).take limit
  ⟨200, true, none, pageRecs.map (enrichScheme users), none⟩

/-!  Jobs: the jobs router, `src/backend/routes/schemes.js` lines 302-535
(the second module in that file). -/

/-- A stored job document. -/
structure Job where
  id : Nat
  title : String
  description : String
  category : String
  location : String
  language : String
  createdBy : Nat
  createdAt : Nat
deriving DecidableEq, Repr

/-- The raw create/update request body for a job. -/
structure JobBody where
  title : Option String
  description : Option String
  category : Option String
  location : Option String
  language : Option String
deriving DecidableEq, Repr

/-- The validated value object for a job. -/
structure JobPayload where
  title : String
  description : String
  category : String
  location : String
  language : String
deriving DecidableEq, Repr

/-- Per-field validation outcomes for `jobSchema` (lines 311-317): title
3..255, description min 10, category 2..100, location 2..255, language
2..50, all required. -/
def jobChecks (b : JobBody) : List (Option String) :=
  [checkStr ⟨"title", true, 3, some 255, none, false⟩ b.title,
   checkStr ⟨"description", true, 10, none, none, false⟩ b.description,
   checkStr ⟨"category", true, 2, some 100, none, false⟩ b.category,
   checkStr ⟨"location", true, 2, some 255, none, false⟩ b.location,
   checkStr ⟨"language", true, 2, some 50, none, false⟩ b.language]

/-- The itemized messages of a failing job validation. -/
def jobErrors (b : JobBody) : List String :=
  (jobChecks b).reduceOption

/-- `jobSchema.validate(req.body)`. -/
def validateJob (b : JobBody) : Except (List String) JobPayload :=
  if jobErrors b = [] then
    .ok ⟨b.title.getD "", b.description.getD "", b.category.getD "",
         b.location.getD "", b.language.getD ""⟩
  else .error (jobErrors b)

/-- Filter object built by jobs `GET /` (lines 325-334): `category` and
`location` case-insensitive substring, `language` exact, each only when
truthy. -/
def jobFilter (category location language : Option String) (j : Job) : Bool :=
  (match category with
   | some c => if c = "" then true else ciContains j.category c
   | none => true)
  && (match location with
      | some c => if c = "" then true else ciContains j.location c
      | none => true)
  && (match language with
      | some l => if l = "" then true else j.language == l
      | none => true)

/-- Owner-name enrichment of one job. -/
def enrichJob (users : List User) (j : Job) : Enriched Job :=
  ⟨j, populateName users j.createdBy⟩

/-- Jobs `GET /` (lines 320-371): filter, sort descending by `createdAt`,
window, and report pagination computed with `countDocuments` on the same
filter. -/
def jobsList (db : List Job) (users : List User)
    (category location language : Option String) (page limit : Nat) : ListResp Job :=
  let matching := db.filter (jobFilter category location language)
  let pageRecs := ((sortDesc Job.createdAt matching).drop ((page - 1) * limit)).take limit
  ⟨200, true, none, pageRecs.map (enrichJob users),
   some ⟨page, (matching.length + limit - 1) / limit, matching.length, limit⟩⟩

/-- Jobs `GET /` reached through `req.query`: destructures
`category, location, language, page = 1, limit = 10` and ignores every
other key. -/
def jobsListFromQuery (db : List Job) (users : List User)
    (q : List (String × String)) : Option (ListResp Job) :=
  match natParam q "page" 1, natParam q "limit" 10 with
  | some p, some l =>
      some (jobsList db users (qlookup q "category") (qlookup q "location")
              (qlookup q "language") p l)
  | _, _ => none

/-- Jobs `POST /` handler body (lines 407-445), after `authenticateToken`. -/
def jobsCreate (db : List Job) (users : List User) (u : User)
    (nextId now : Nat) (b : JobBody) : MutResp Job × List Job :=
  match validateJob b with
  | .error es => (⟨400, false, some "Validation error", es, none⟩, db)
  | .ok v =>
      let j : Job := ⟨nextId, v.title, v.description, v.category, v.location,
                      v.language, u.id, now⟩
      (⟨201, true, some "Job created successfully", [], some (enrichJob users j)⟩,
       db ++ [j])

/-- `findByIdAndUpdate(id, value)` for jobs. -/
def applyJobUpdate (v : JobPayload) (j : Job) : Job :=
  ⟨j.id, v.title, v.description, v.category, v.location, v.language,
   j.createdBy, j.createdAt⟩

/-- Jobs `PUT /:id` handler body (lines 448-497): validate, then existence
check, then the ownership comparison
`createdBy.toString() !== req.user._id.toString() && req.user.role !== 'admin'`. -/
def jobsUpdate (db : List Job) (users : List User) (u : User)
    (id : Nat) (b : JobBody) : MutResp Job × List Job :=
  match validateJob b with
  | .error es => (⟨400, false, some "Validation error", es, none⟩, db)
  | .ok v =>
      match db.find? (fun j => j.id == id) with
      | none => (⟨404, false, some "Job not found", [], none⟩, db)
      | some existing =>
          if !(existing.createdBy == u.id) && !(u.role == "admin") then
            (⟨403, false, some "You can only update your own jobs", [], none⟩, db)
          else
            (⟨200, true, some "Job updated successfully", [],
              some (enrichJob users (applyJobUpdate v existing))⟩,
             db.map (fun t => if t.id == id then applyJobUpdate v t else t))

/-- Jobs `DELETE /:id` handler body (lines 500-533): existence check, then
the same ownership comparison, then `findByIdAndDelete`. -/
def jobsDelete (db : List Job) (u : User) (id : Nat) : MutResp Job × List Job :=
  match db.find? (fun j => j.id == id) with
  | none => (⟨404, false, some "Job not found", [], none⟩, db)
  | some existing =>
      if !(existing.createdBy == u.id) && !(u.role == "admin") then
        (⟨403, false, some "You can only delete your own jobs", [], none⟩, db)
      else
        (⟨200, true, some "Job deleted successfully", [], none⟩,
         db.filter (fun t => !(t.id == id)))

/-!  Marketplace: model in `src/unnamed/part_000` (second module) and the
marketplace router, `src/backend/routes/training.js` lines 267-544 (the
second module in that file).  The nested `contact` object is flattened into
three fields. -/

/-- A stored marketplace document. -/
structure Marketplace where
  id : Nat
  businessName : String
  ownerName : String
  productService : String
  contactPhone : String
  contactEmail : String
  contactAddress : String
  location : String
  language : String
  createdBy : Nat
  createdAt : Nat
deriving DecidableEq, Repr

/-- Filter object built by marketplace `GET /` (lines 294-300): `language`
exact, `location` case-insensitive substring, each only when truthy. -/
def marketplaceFilter (language location : Option String) (m : Marketplace) : Bool :=
  (match language with
   | some l => if l = "" then true else m.language == l
   | none => true)
  && (match location with
      | some c => if c = "" then true else ciContains m.location c
      | none => true)

/-- Owner-name enrichment of one marketplace entry. -/
def enrichMarketplace (users : List User) (m : Marketplace) : Enriched Marketplace :=
  ⟨m, populateName users m.createdBy⟩

/-- Marketplace `GET /` (lines 289-337): filter, sort descending by
`createdAt`, window, pagination from `countDocuments` on the same filter. -/
def marketplaceList (db : List Marketplace) (users : List User)
    (language location : Option String) (page limit : Nat) : ListResp Marketplace :=
  let matching := db.filter (marketplaceFilter language location)
  let pageRecs := ((sortDesc Marketplace.createdAt matching).drop ((page - 1) * limit)).take limit
  ⟨200, true, none, pageRecs.map (enrichMarketplace users),
   some ⟨page, (matching.length + limit - 1) / limit, matching.length, limit⟩⟩

/-- Marketplace `GET /` reached through `req.query`: destructures
`language, location, page = 1, limit = 10` and ignores every other key. -/
def marketplaceListFromQuery (db : List Marketplace) (users : List User)
    (q : List (String × String)) : Option (ListResp Marketplace) :=
  match natParam q "page" 1, natParam q "limit" 10 with
  | some p, some l =>
      some (marketplaceList db users (qlookup q "language") (qlookup q "location") p l)
  | _, _ => none

/-- Marketplace `DELETE /:id` handler body (lines 466-499): existence
check, then the ownership comparison, then `findByIdAndDelete`. -/
def marketplaceDelete (db : List Marketplace) (u : User) (id : Nat) :
    MutResp Marketplace × List Marketplace :=
  match db.find? (fun m => m.id == id) with
  | none => (⟨404, false, some "Marketplace entry not found", [], none⟩, db)
  | some existing =>
      if !(existing.createdBy == u.id) && !(u.role == "admin") then
        (⟨403, false, some "You can only delete your own marketplace entries", [], none⟩, db)
      else
        (⟨200, true, some "Marketplace entry deleted successfully", [], none⟩,
         db.filter (fun t => !(t.id == id)))

/-- Search filter of marketplace `GET /search/:query` (lines 508-517):
case-insensitive substring of `query` in businessName OR productService,
AND-ed with the optional exact `language` filter. -/
def marketplaceSearchFilter (query : String) (language : Option String)
    (m : Marketplace) : Bool :=
  (ciContains m.businessName query || ciContains m.productService query)
  && (match language with
      | some l => if l = "" then true else m.language == l
      | none => true)

/-- Marketplace `GET /search/:query` (lines 502-542): same sort/skip/limit
windowing as List, but the response object (lines 526-534) carries only
`results` — its `data` has no `pagination` key. -/
def marketplaceSearch (db : List Marketplace) (users : List User) (query : String)
    (language : Option String) (page limit : Nat) : ListResp Marketplace :=
  let matching := db.filter (marketplaceSearchFilter query language)
  let pageRecs := ((sortDesc Marketplace.createdAt matching).drop ((page - 1) * limit)).take limit
  ⟨200, true, none, pageRecs.map (enrichMarketplace users), none⟩

/-!  Training content: `src/backend/models/TrainingContent.js` and the
training router, `src/backend/routes/training.js` lines 1-266.

The training router's imports (lines 1-4) bind `db` to the module export of
`backend/config/database.js` (`src/unnamed/part_000`), which is the async
connect function `connectDB` — a function whose call result is a `Promise`
with no `.select`/`.where`/`.count` methods — and the module never imports
the `TrainingContent` model, so the bare identifier `TrainingContent` is
unbound.  Consequently:
* `GET /` (line 22) evaluates `db('training_content').select`, which is
  `undefined`, and calling it throws a `TypeError`;
* every other handler evaluates the unbound `TrainingContent` and throws a
  `ReferenceError` (lines 72, 112, 156, 199, 242);
in every case inside the handler's `try`, so the `catch` responds
`500 \x7bsuccess:false, message:'Internal server error'\x7d`.  The only code
before those throw points is `req` destructuring and, in the create/update
handlers, the `Joi` validation, whose failure path returns 400 first. -/

/-- A stored training-content document (never reachable through this
router, present for the payload/record types). -/
structure Training where
  id : Nat
  title : String
  type : String
  url : String
  language : String
  description : Option String
  createdBy : Nat
  createdAt : Nat
deriving DecidableEq, Repr

/-- The raw create/update request body for training content. -/
structure TrainingBody where
  title : Option String
  type : Option String
  url : Option String
  language : Option String
  description : Option String
deriving DecidableEq, Repr

/-- The validated value object for training content. -/
structure TrainingPayload where
  title : String
  type : String
  url : String
  language : String
  description : Option String
deriving DecidableEq, Repr

/-- Per-field validation outcomes for `trainingSchema` (training.js lines
9-15): title 3..255 required, type ∈ \x7bvideo, pdf, text, infographic\x7d
required, url uri required, language 2..50 required, description max 1000
optional. -/
def trainingChecks (b : TrainingBody) : List (Option String) :=
  [checkStr ⟨"title", true, 3, some 255, none, false⟩ b.title,
   checkStr ⟨"type", true, 0, none, some ["video", "pdf", "text", "infographic"], false⟩ b.type,
   checkStr ⟨"url", true, 0, none, none, true⟩ b.url,
   checkStr ⟨"language", true, 2, some 50, none, false⟩ b.language,
   checkStr ⟨"description", false, 0, some 1000, none, false⟩ b.description]

/-- The itemized messages of a failing training validation. -/
def trainingErrors (b : TrainingBody) : List String :=
  (trainingChecks b).reduceOption

/-- `trainingSchema.validate(req.body)`. -/
def validateTraining (b : TrainingBody) : Except (List String) TrainingPayload :=
  if trainingErrors b = [] then
    .ok ⟨b.title.getD "", b.type.getD "", b.url.getD "", b.language.getD "",
         b.description⟩
  else .error (trainingErrors b)

/-- The 500 every storage-reaching training handler produces. -/
def trainingInternalError (α : Type) : MutResp α :=
  ⟨500, false, some "Internal server error", [], none⟩

/-- Training `GET /` (lines 18-65): line 22 throws a `TypeError`
(`db('training_content').select` is `undefined`), caught at line 58. -/
def trainingGetAll (q : List (String × String)) : ListResp Training :=
  ⟨500, false, some "Internal server error", [], none⟩

/-- Training `GET /:id` (lines 68-98): line 72 throws a `ReferenceError`
(`TrainingContent` is unbound), caught at line 91. -/
def trainingGetById (db : List Training) (id : Nat) : MutResp Training :=
  trainingInternalError Training

/-- Training `POST /` handler body (lines 101-139), after
`authenticateToken, requireRole(['entrepreneur', 'admin'])`: an invalid
payload still returns 400 at line 105; a valid one reaches
`new TrainingContent(...)` at line 112, which throws a `ReferenceError`,
caught at line 132. -/
def trainingCreate (db : List Training) (u : User) (b : TrainingBody) :
    MutResp Training × List Training :=
  match validateTraining b with
  | .error es => (⟨400, false, some "Validation error", es, none⟩, db)
  | .ok _ => (trainingInternalError Training, db)

/-- Training `PUT /:id` handler body (lines 142-191): an invalid payload
returns 400 at line 148; a valid one reaches `TrainingContent.findById` at
line 156, which throws a `ReferenceError`, caught at line 184 — the
existence and ownership checks written at lines 157-169 never execute. -/
def trainingUpdate (db : List Training) (u : User) (id : Nat) (b : TrainingBody) :
    MutResp Training × List Training :=
  match validateTraining b with
  | .error es => (⟨400, false, some "Validation error", es, none⟩, db)
  | .ok _ => (trainingInternalError Training, db)

/-- Training `DELETE /:id` handler body (lines 194-227): line 199 throws a
`ReferenceError`, caught at line 220 — the checks at lines 200-212 never
execute. -/
def trainingDelete (db : List Training) (u : User) (id : Nat) :
    MutResp Training × List Training :=
  (trainingInternalError Training, db)

/-- Training `GET /type/:type` (lines 230-264): line 242 throws a
`ReferenceError`, caught at line 257. -/
def trainingByType (db : List Training) (ty : String) (q : List (String × String)) :
    ListResp Training :=
  ⟨500, false, some "Internal server error", [], none⟩

/-!  Shared lemmas about the embedded building blocks. -/

theorem validateScheme_error_elim (b : SchemeBody) (es : List String)
    (h : validateScheme b = .error es) : es = schemeErrors b ∧ schemeErrors b ≠ [] := by
  unfold validateScheme at h
  split at h
  · simp at h
  · injection h with h2
    exact ⟨h2.symm, by assumption⟩

theorem validateJob_error_elim (b : JobBody) (es : List String)
    (h : validateJob b = .error es) : es = jobErrors b ∧ jobErrors b ≠ [] := by
  unfold validateJob at h
  split at h
  · simp at h
  · injection h with h2
    exact ⟨h2.symm, by assumption⟩

/-- Every message of a failing scheme validation names one of the schema's
fields. -/
theorem schemeErrors_named (b : SchemeBody) (m : String) (h : m ∈ schemeErrors b) :
    ∃ f ∈ (["title", "description", "eligibility", "link", "language", "category"] : List String),
      strIncl (quoted f) m = true := by
  have h2 : some m ∈ schemeChecks b := List.reduceOption_mem_iff.mp h
  simp only [schemeChecks, List.mem_cons, List.not_mem_nil, or_false] at h2
  rcases h2 with h2 | h2 | h2 | h2 | h2 | h2
  · exact ⟨"title", by simp, checkStr_names _ _ _ h2.symm⟩
  · exact ⟨"description", by simp, checkStr_names _ _ _ h2.symm⟩
  · exact ⟨"eligibility", by simp, checkStr_names _ _ _ h2.symm⟩
  · exact ⟨"link", by simp, checkStr_names _ _ _ h2.symm⟩
  · exact ⟨"language", by simp, checkStr_names _ _ _ h2.symm⟩
  · exact ⟨"category", by simp, checkStr_names _ _ _ h2.symm⟩

/-- Every message of a failing job validation names one of the schema's
fields. -/
theorem jobErrors_named (b : JobBody) (m : String) (h : m ∈ jobErrors b) :
    ∃ f ∈ (["title", "description", "category", "location", "language"] : List String),
      strIncl (quoted f) m = true := by
  have h2 : some m ∈ jobChecks b := List.reduceOption_mem_iff.mp h
  simp only [jobChecks, List.mem_cons, List.not_mem_nil, or_false] at h2
  rcases h2 with h2 | h2 | h2 | h2 | h2
  · exact ⟨"title", by simp, checkStr_names _ _ _ h2.symm⟩
  · exact ⟨"description", by simp, checkStr_names _ _ _ h2.symm⟩
  · exact ⟨"category", by simp, checkStr_names _ _ _ h2.symm⟩
  · exact ⟨"location", by simp, checkStr_names _ _ _ h2.symm⟩
  · exact ⟨"language", by simp, checkStr_names _ _ _ h2.symm⟩

/-- A record on a returned page came from the filtered collection. -/
theorem mem_window (key : α → Nat) (p : α → Bool) (db : List α) (s n : Nat) (x : α)
    (h : x ∈ ((sortDesc key (db.filter p)).drop s).take n) : p x = true := by
  have h1 : x ∈ (sortDesc key (db.filter p)).drop s := List.take_subset _ _ h
  have h2 : x ∈ sortDesc key (db.filter p) := List.drop_subset _ _ h1
  have h3 : x ∈ db.filter p := (mem_sortDesc _ _ _).mp h2
  exact (List.mem_filter.mp h3).2

/-- `Math.ceil(c / l)` (embedded as `(c + l - 1) / l`) is the least `n`
with `c ≤ n * l`. -/
theorem ceil_div_spec (c l : Nat) (hl : 1 ≤ l) :
    c ≤ ((c + l - 1) / l) * l ∧ ∀ m, c ≤ m * l → (c + l - 1) / l ≤ m := by
  constructor
  · by_contra hlt
    push_neg at hlt
    have hle : ((c + l - 1) / l + 1) * l ≤ c + l - 1 := by
      have : ((c + l - 1) / l + 1) * l = ((c + l - 1) / l) * l + l := by ring
      omega
    have := (Nat.le_div_iff_mul_le (by omega : 0 < l)).mpr hle
    omega
  · intro m hm
    have hlt : c + l - 1 < (m + 1) * l := by
      have : (m + 1) * l = m * l + l := by ring
      omega
    have := (Nat.div_lt_iff_lt_mul (by omega : 0 < l)).mpr hlt
    omega

/-- Looking up one key is unaffected by an entry under a different key. -/
theorem qlookup_cons_ne (k : String) (v : String) (q : List (String × String))
    (k' : String) (h : k ≠ k') : qlookup ((k, v) :: q) k' = qlookup q k' := by
  unfold qlookup
  rw [List.find?_cons_of_neg]
  simp [h]

theorem natParam_cons_ne (k v : String) (q : List (String × String))
    (k' : String) (d : Nat) (h : k ≠ k') :
    natParam ((k, v) :: q) k' d = natParam q k' d := by
  unfold natParam
  rw [qlookup_cons_ne k v q k' h]

/-- Unpack a passing jobs filter into the per-parameter predicates. -/
theorem jobFilter_spec (cat loc lang : Option String) (j : Job)
    (h : jobFilter cat loc lang j = true) :
    (∀ c, cat = some c → c ≠ "" → ciContains j.category c = true)
    ∧ (∀ c, loc = some c → c ≠ "" → ciContains j.location c = true)
    ∧ (∀ s, lang = some s → s ≠ "" → j.language = s) := by
  simp only [jobFilter, Bool.and_eq_true] at h
  obtain ⟨⟨h1, h2⟩, h3⟩ := h
  refine ⟨?_, ?_, ?_⟩
  · intro c hc hne
    subst hc
    simpa [hne] using h1
  · intro c hc hne
    subst hc
    simpa [hne] using h2
  · intro s hs hne
    subst hs
    simp only [hne, if_false] at h3
    exact eq_of_beq h3

/-- Unpack a passing marketplace filter into the per-parameter predicates. -/
theorem marketplaceFilter_spec (lang loc : Option String) (m : Marketplace)
    (h : marketplaceFilter lang loc m = true) :
    (∀ s, lang = some s → s ≠ "" → m.language = s)
    ∧ (∀ c, loc = some c → c ≠ "" → ciContains m.location c = true) := by
  simp only [marketplaceFilter, Bool.and_eq_true] at h
  obtain ⟨h1, h2⟩ := h
  refine ⟨?_, ?_⟩
  · intro s hs hne
    subst hs
    simp only [hne, if_false] at h1
    exact eq_of_beq h1
  · intro c hc hne
    subst hc
    simpa [hne] using h2

/-- A returned jobs-page record passed the jobs filter. -/
theorem jobsList_records_filter (db : List Job) (users : List User)
    (cat loc lang : Option String) (p l : Nat) (e : Enriched Job)
    (h : e ∈ (jobsList db users cat loc lang p l).records) :
    jobFilter cat loc lang e.item = true := by
  simp only [jobsList] at h
  rcases List.mem_map.mp h with ⟨j, hj, rfl⟩
  exact mem_window _ _ _ _ _ _ hj

/-- A returned marketplace-page record passed the marketplace filter. -/
theorem marketplaceList_records_filter (db : List Marketplace) (users : List User)
    (lang loc : Option String) (p l : Nat) (e : Enriched Marketplace)
    (h : e ∈ (marketplaceList db users lang loc p l).records) :
    marketplaceFilter lang loc e.item = true := by
  simp only [marketplaceList] at h
  rcases List.mem_map.mp h with ⟨m, hm, rfl⟩
  exact mem_window _ _ _ _ _ _ hm

/-- Query keys the jobs List handler destructures. -/
def jobsQueryKeys : List String := ["category", "location", "language", "page", "limit"]

/-- Query keys the marketplace List handler destructures. -/
def marketplaceQueryKeys : List String := ["language", "location", "page", "limit"]

/-- C3: on the jobs and marketplace List endpoints, every record of the
returned page satisfies all supplied filter predicates combined with AND
(`language` by exact equality, `category`/`location` by case-insensitive
substring), absent parameters impose no constraint, a query entry under an
unrecognized key leaves the response unchanged, and `totalItems` equals the
count of all records matching the same predicates, independent of `page`
and `limit`. -/
theorem claim_list_filter_and_semantics
    (jdb : List Job) (mdb : List Marketplace) (users : List User)
    (cat loc lang : Option String) (p l : Nat) :
    (∀ e ∈ (jobsList jdb users cat loc lang p l).records,
       (∀ c, cat = some c → c ≠ "" → ciContains e.item.category c = true)
       ∧ (∀ c, loc = some c → c ≠ "" → ciContains e.item.location c = true)
       ∧ (∀ s, lang = some s → s ≠ "" → e.item.language = s))
    ∧ (∀ pag, (jobsList jdb users cat loc lang p l).pagination = some pag →
        pag.totalItems = (jdb.filter (jobFilter cat loc lang)).length)
    ∧ (∀ e ∈ (marketplaceList mdb users lang loc p l).records,
       (∀ s, lang = some s → s ≠ "" → e.item.language = s)
       ∧ (∀ c, loc = some c → c ≠ "" → ciContains e.item.location c = true))
    ∧ (∀ pag, (marketplaceList mdb users lang loc p l).pagination = some pag →
        pag.totalItems = (mdb.filter (marketplaceFilter lang loc)).length)
    ∧ (∀ (k v : String) (q : List (String × String)), k ∉ jobsQueryKeys →
        jobsListFromQuery jdb users ((k, v) :: q) = jobsListFromQuery jdb users q)
    ∧ (∀ (k v : String) (q : List (String × String)), k ∉ marketplaceQueryKeys →
        marketplaceListFromQuery mdb users ((k, v) :: q) =
          marketplaceListFromQuery mdb users q) := by
  refine ⟨?_, ?_, ?_, ?_, ?_, ?_⟩
  · intro e he
    exact jobFilter_spec cat loc lang e.item (jobsList_records_filter _ _ _ _ _ _ _ _ he)
  · intro pag hpag
    simp only [jobsList, Option.some.injEq] at hpag
    rw [← hpag]
  · intro e he
    exact marketplaceFilter_spec lang loc e.item
      (marketplaceList_records_filter _ _ _ _ _ _ _ he)
  · intro pag hpag
    simp only [marketplaceList, Option.some.injEq] at hpag
    rw [← hpag]
  · intro k v q hk
    simp only [jobsQueryKeys, List.mem_cons, List.not_mem_nil, or_false, not_or] at hk
    obtain ⟨h1, h2, h3, h4, h5⟩ := hk
    unfold jobsListFromQuery
    rw [natParam_cons_ne k v q "page" 1 h4, natParam_cons_ne k v q "limit" 10 h5,
        qlookup_cons_ne k v q "category" h1, qlookup_cons_ne k v q "location" h2,
        qlookup_cons_ne k v q "language" h3]
  · intro k v q hk
    simp only [marketplaceQueryKeys, List.mem_cons, List.not_mem_nil, or_false, not_or] at hk
    obtain ⟨h1, h2, h3, h4⟩ := hk
    unfold marketplaceListFromQuery
    rw [natParam_cons_ne k v q "page" 1 h3, natParam_cons_ne k v q "limit" 10 h4,
        qlookup_cons_ne k v q "language" h1, qlookup_cons_ne k v q "location" h2]

/-- A concrete job record used to instantiate the general theorems. -/
def jobA : Job := ⟨1, "Farm help", "Need help on the farm", "Agriculture", "Pune", "en", 7, 5⟩

/-- A concrete marketplace record used to instantiate the general theorems. -/
def mktA : Marketplace :=
  ⟨1, "Asha Crafts", "Asha", "Handmade baskets", "919876543210", "a@b.co",
   "12 Market Road", "Pune", "en", 7, 5⟩

/-- Witness for C3 at a concrete database and filter set. -/
theorem claim_list_filter_and_semantics_witness :
    (ciContains jobA.category "agri" = true
     ∧ ciContains jobA.location "pun" = true
     ∧ jobA.language = "en")
    ∧ (⟨1, 1, 1, 10⟩ : Pagination).totalItems =
        ([jobA].filter (jobFilter (some "agri") (some "pun") (some "en"))).length
    ∧ (mktA.language = "en" ∧ ciContains mktA.location "pun" = true)
    ∧ jobsListFromQuery [jobA] [] [("foo", "x")] = jobsListFromQuery [jobA] [] []
    ∧ marketplaceListFromQuery [mktA] [] [("foo", "x")] =
        marketplaceListFromQuery [mktA] [] [] := by
  have T := claim_list_filter_and_semantics [jobA] [mktA] []
    (some "agri") (some "pun") (some "en") 1 10
  refine ⟨?_, ?_, ?_, ?_, ?_⟩
  · have hm : (⟨jobA, none⟩ : Enriched Job) ∈
        (jobsList [jobA] [] (some "agri") (some "pun") (some "en") 1 10).records := by
      decide
    obtain ⟨ha, hb, hc⟩ := T.1 ⟨jobA, none⟩ hm
    exact ⟨ha "agri" rfl (by decide), hb "pun" rfl (by decide), hc "en" rfl (by decide)⟩
  · exact T.2.1 ⟨1, 1, 1, 10⟩ (by decide)
  · have hm : (⟨mktA, none⟩ : Enriched Marketplace) ∈
        (marketplaceList [mktA] [] (some "en") (some "pun") 1 10).records := by
      decide
    obtain ⟨ha, hb⟩ := T.2.2.1 ⟨mktA, none⟩ hm
    exact ⟨ha "en" rfl (by decide), hb "pun" rfl (by decide)⟩
  · exact T.2.2.2.2.1 "foo" "x" [] (by decide)
  · exact T.2.2.2.2.2 "foo" "x" [] (by decide)

/-- C4: on the schemes List endpoint with positive-integer page and limit,
the metadata reports the requested page and limit, `totalItems` counts all
matching records, `totalPages` is the ceiling of `totalItems / limit` (the
least number of pages covering all items), the page holds at most `limit`
records and is the contiguous window of the sorted matching records
starting at offset `(page-1)*limit`, an out-of-range page yields an empty
record list, and the filter-dependent metadata equals that of the page-1
request under the same filters. -/
theorem claim_schemes_pagination (db : List Scheme) (users : List User)
    (lang cat : Option String) (p l : Nat) (hp : 1 ≤ p) (hl : 1 ≤ l)
    (pag : Pagination)
    (hpag : (schemesList db users lang cat p l).pagination = some pag) :
    pag.currentPage = p
    ∧ pag.itemsPerPage = l
    ∧ pag.totalItems = (db.filter (schemeFilter lang cat)).length
    ∧ (pag.totalItems ≤ pag.totalPages * pag.itemsPerPage
       ∧ ∀ m, pag.totalItems ≤ m * pag.itemsPerPage → pag.totalPages ≤ m)
    ∧ (schemesList db users lang cat p l).records.length ≤ l
    ∧ (∀ i, i < (schemesList db users lang cat p l).records.length →
        ((schemesList db users lang cat p l).records[i]?).map Enriched.item =
          (sortDesc Scheme.createdAt (db.filter (schemeFilter lang cat)))[(p - 1) * l + i]?)
    ∧ (pag.totalItems ≤ (p - 1) * l →
        (schemesList db users lang cat p l).records = [])
    ∧ (schemesList db users lang cat 1 l).pagination =
        some ⟨1, pag.totalPages, pag.totalItems, pag.itemsPerPage⟩ := by
  simp only [schemesList, Option.some.injEq] at hpag
  subst hpag
  refine ⟨rfl, rfl, rfl, ceil_div_spec _ _ hl, ?_, ?_, ?_, rfl⟩
  · simp only [schemesList, List.length_map]
    exact List.length_take_le l _
  · intro i hi
    simp only [schemesList, List.length_map] at hi
    have hil : i < l := lt_of_lt_of_le hi (List.length_take_le l _)
    simp only [schemesList, List.getElem?_map, List.getElem?_take_of_lt hil,
      List.getElem?_drop, Option.map_map]
    have : (Enriched.item ∘ enrichScheme users) = fun s => s := by
      funext s
      rfl
    rw [this]
    exact Option.map_id'
  · intro hout
    simp only [schemesList]
    have hlen : (sortDesc Scheme.createdAt (db.filter (schemeFilter lang cat))).length ≤
        (p - 1) * l := by
      rw [length_sortDesc]
      exact hout
    rw [List.drop_eq_nil_of_le hlen]
    simp

/-- A concrete scheme record used to instantiate the general theorems. -/
def schemeA : Scheme :=
  ⟨1, "Farm aid", "Support for small farms", "Smallholders", "https://g.in/a",
   "en", "agriculture", 1, 1⟩

/-- A second concrete scheme record. -/
def schemeB : Scheme :=
  ⟨2, "Craft fund", "Funding for craftswomen", "Artisans", "https://g.in/b",
   "en", "craft", 1, 2⟩

/-- Witness for C4 at a two-record database, page 2, limit 1. -/
theorem claim_schemes_pagination_witness :
    ((1 : Nat) ≤ 2 ∧ (1 : Nat) ≤ 1
     ∧ (schemesList [schemeA, schemeB] [] none none 2 1).pagination =
         some ⟨2, 2, 2, 1⟩)
    ∧ ((⟨2, 2, 2, 1⟩ : Pagination).currentPage = 2
       ∧ (⟨2, 2, 2, 1⟩ : Pagination).itemsPerPage = 1
       ∧ (⟨2, 2, 2, 1⟩ : Pagination).totalItems =
           ([schemeA, schemeB].filter (schemeFilter none none)).length
       ∧ ((⟨2, 2, 2, 1⟩ : Pagination).totalItems ≤
            (⟨2, 2, 2, 1⟩ : Pagination).totalPages * (⟨2, 2, 2, 1⟩ : Pagination).itemsPerPage
          ∧ ∀ m, (⟨2, 2, 2, 1⟩ : Pagination).totalItems ≤
              m * (⟨2, 2, 2, 1⟩ : Pagination).itemsPerPage →
              (⟨2, 2, 2, 1⟩ : Pagination).totalPages ≤ m)
       ∧ (schemesList [schemeA, schemeB] [] none none 2 1).records.length ≤ 1
       ∧ (∀ i, i < (schemesList [schemeA, schemeB] [] none none 2 1).records.length →
           ((schemesList [schemeA, schemeB] [] none none 2 1).records[i]?).map Enriched.item =
             (sortDesc Scheme.createdAt
               ([schemeA, schemeB].filter (schemeFilter none none)))[(2 - 1) * 1 + i]?)
       ∧ ((⟨2, 2, 2, 1⟩ : Pagination).totalItems ≤ (2 - 1) * 1 →
           (schemesList [schemeA, schemeB] [] none none 2 1).records = [])
       ∧ (schemesList [schemeA, schemeB] [] none none 1 1).pagination =
           some ⟨1, (⟨2, 2, 2, 1⟩ : Pagination).totalPages,
                 (⟨2, 2, 2, 1⟩ : Pagination).totalItems,
                 (⟨2, 2, 2, 1⟩ : Pagination).itemsPerPage⟩) :=
  ⟨⟨by decide, by decide, by decide⟩,
   claim_schemes_pagination [schemeA, schemeB] [] none none 2 1
     (by decide) (by decide) ⟨2, 2, 2, 1⟩ (by decide)⟩

/-- The authenticated entrepreneur-role caller of the spec's scenario. -/
def entreUser : User := ⟨7, "Asha Devi", "entrepreneur"⟩

/-- The spec scenario's training payload:
`\x7btitle:"Intro", type:"video", url:"https://x.test/a", language:"en"\x7d`. -/
def introBody : TrainingBody :=
  ⟨some "Intro", some "video", some "https://x.test/a", some "en", none⟩

/-- C1 (divergence): the scenario's payload passes the role gate and the
`Joi` validation, yet the create handler responds
`500 Internal server error` and persists nothing — not the claimed
`201` with a `created_by_name` — because `training.js` never imports
`TrainingContent` (line 112 throws a `ReferenceError` into the `catch`). -/
theorem claim_training_create_scenario :
    requireRole ["entrepreneur", "admin"] entreUser = true
    ∧ validateTraining introBody = .ok ⟨"Intro", "video", "https://x.test/a", "en", none⟩
    ∧ trainingCreate [] entreUser introBody =
        (⟨500, false, some "Internal server error", [], none⟩, []) :=
  ⟨rfl, rfl, rfl⟩

/-- An empty training request body (fails validation on every required field). -/
def trainingBodyNone : TrainingBody := ⟨none, none, none, none, none⟩

/-- C2 counterexample: not every training-router request takes the catch
branch and responds 500 — a create request with an invalid payload is
rejected 400 by the `Joi` validation before the throwing storage access. -/
theorem claim_training_all_500_counterexample :
    (trainingCreate [] entreUser trainingBodyNone).fst.status = 400
    ∧ ¬ (trainingCreate [] entreUser trainingBodyNone).fst.status = 500 := by
  decide

/-- C2 (amended): every training-router handler that reaches its
storage/model access responds `500 \x7bsuccess:false, 'Internal server
error'\x7d` — unconditionally for list, get-by-id, delete and list-by-type,
and for create/update whenever the payload passes validation (an invalid
payload gets 400 'Validation error' first); no handler ever produces a
success response or writes to storage. -/
theorem claim_training_router_never_succeeds
    (q : List (String × String)) (db : List Training) (u : User) (id : Nat)
    (b : TrainingBody) (ty : String) :
    trainingGetAll q = ⟨500, false, some "Internal server error", [], none⟩
    ∧ trainingGetById db id = trainingInternalError Training
    ∧ (∀ v, validateTraining b = .ok v →
        trainingCreate db u b = (trainingInternalError Training, db))
    ∧ (∀ es, validateTraining b = .error es →
        trainingCreate db u b = (⟨400, false, some "Validation error", es, none⟩, db))
    ∧ (trainingCreate db u b).fst.success = false
    ∧ (trainingCreate db u b).snd = db
    ∧ (∀ v, validateTraining b = .ok v →
        trainingUpdate db u id b = (trainingInternalError Training, db))
    ∧ (∀ es, validateTraining b = .error es →
        trainingUpdate db u id b = (⟨400, false, some "Validation error", es, none⟩, db))
    ∧ (trainingUpdate db u id b).fst.success = false
    ∧ (trainingUpdate db u id b).snd = db
    ∧ trainingDelete db u id = (trainingInternalError Training, db)
    ∧ trainingByType db ty q = ⟨500, false, some "Internal server error", [], none⟩ := by
  refine ⟨rfl, rfl, ?_, ?_, ?_, ?_, ?_, ?_, ?_, ?_, rfl, rfl⟩
  · intro v hv
    simp [trainingCreate, hv]
  · intro es hes
    simp [trainingCreate, hes]
  · cases hv : validateTraining b <;> simp [trainingCreate, hv, trainingInternalError]
  · cases hv : validateTraining b <;> simp [trainingCreate, hv, trainingInternalError]
  · intro v hv
    simp [trainingUpdate, hv]
  · intro es hes
    simp [trainingUpdate, hes]
  · cases hv : validateTraining b <;> simp [trainingUpdate, hv, trainingInternalError]
  · cases hv : validateTraining b <;> simp [trainingUpdate, hv, trainingInternalError]

/-- Witness for C2 at concrete requests: a valid create/update payload hits
the 500, an empty payload hits the 400. -/
theorem claim_training_router_never_succeeds_witness :
    trainingCreate [] entreUser introBody = (trainingInternalError Training, [])
    ∧ trainingUpdate [] entreUser 1 introBody = (trainingInternalError Training, [])
    ∧ trainingCreate [] entreUser trainingBodyNone =
        (⟨400, false, some "Validation error",
          ["\"title\" is required", "\"type\" is required", "\"url\" is required",
           "\"language\" is required"], none⟩, []) :=
  ⟨(claim_training_router_never_succeeds [] [] entreUser 1 introBody "video").2.2.1
     ⟨"Intro", "video", "https://x.test/a", "en", none⟩ rfl,
   (claim_training_router_never_succeeds [] [] entreUser 1 introBody "video").2.2.2.2.2.2.1
     ⟨"Intro", "video", "https://x.test/a", "en", none⟩ rfl,
   (claim_training_router_never_succeeds [] [] entreUser 1 trainingBodyNone "video").2.2.2.1
     ["\"title\" is required", "\"type\" is required", "\"url\" is required",
      "\"language\" is required"] rfl⟩

/-- A stored training record owned by user 7. -/
def train1 : Training := ⟨1, "Old title", "video", "https://x.test/a", "en", none, 7, 0⟩

/-- A different authenticated entrepreneur (id 8): non-owner, non-admin. -/
def entreUser2 : User := ⟨8, "Vikram", "entrepreneur"⟩

/-- A job request body that passes `jobSchema` validation. -/
def goodJobBody : JobBody :=
  ⟨some "Farm help", some "Need help on the farm", some "agriculture",
   some "Pune", some "en"⟩

/-- C5 (divergence on training): a non-owner, non-admin caller mutating a
jobs or marketplace record gets 403 with the stored collection unchanged;
but the same attempt on a training record gets 500, not the claimed 403,
because the training update handler throws on the unbound `TrainingContent`
before its ownership check (the collection is still unchanged). -/
theorem claim_ownership_forbidden :
    (∀ (jdb : List Job) (users : List User) (u : User) (id : Nat) (j : Job)
       (b : JobBody) (v : JobPayload),
       validateJob b = .ok v →
       jdb.find? (fun x => x.id == id) = some j →
       j.createdBy ≠ u.id → u.role ≠ "admin" →
       (jobsUpdate jdb users u id b).fst.status = 403
       ∧ (jobsUpdate jdb users u id b).fst.success = false
       ∧ (jobsUpdate jdb users u id b).snd = jdb)
    ∧ (∀ (mdb : List Marketplace) (u : User) (id : Nat) (m : Marketplace),
       mdb.find? (fun x => x.id == id) = some m →
       m.createdBy ≠ u.id → u.role ≠ "admin" →
       (marketplaceDelete mdb u id).fst.status = 403
       ∧ (marketplaceDelete mdb u id).fst.success = false
       ∧ (marketplaceDelete mdb u id).snd = mdb)
    ∧ ((trainingUpdate [train1] entreUser2 1 introBody).fst.status = 500
       ∧ (trainingUpdate [train1] entreUser2 1 introBody).snd = [train1]) := by
  refine ⟨?_, ?_, by decide⟩
  · intro jdb users u id j b v hv hfind howner hrole
    have hcond : (!(j.createdBy == u.id) && !(u.role == "admin")) = true := by
      simp [howner, hrole]
    simp [jobsUpdate, hv, hfind, hcond]
  · intro mdb u id m hfind howner hrole
    have hcond : (!(m.createdBy == u.id) && !(u.role == "admin")) = true := by
      simp [howner, hrole]
    simp [marketplaceDelete, hfind, hcond]

/-- Witness for C5: concrete non-owner, non-admin mutation attempts. -/
theorem claim_ownership_forbidden_witness :
    ((jobsUpdate [jobA] [] entreUser2 1 goodJobBody).fst.status = 403
     ∧ (jobsUpdate [jobA] [] entreUser2 1 goodJobBody).fst.success = false
     ∧ (jobsUpdate [jobA] [] entreUser2 1 goodJobBody).snd = [jobA])
    ∧ ((marketplaceDelete [mktA] entreUser2 1).fst.status = 403
       ∧ (marketplaceDelete [mktA] entreUser2 1).fst.success = false
       ∧ (marketplaceDelete [mktA] entreUser2 1).snd = [mktA]) :=
  ⟨claim_ownership_forbidden.1 [jobA] [] entreUser2 1 jobA goodJobBody
     ⟨"Farm help", "Need help on the farm", "agriculture", "Pune", "en"⟩
     rfl rfl (by decide) (by decide),
   claim_ownership_forbidden.2.1 [mktA] entreUser2 1 mktA
     rfl (by decide) (by decide)⟩

/-- C6: a jobs Update or Delete whose id resolves to no record responds 404
not-found with the collection unchanged, for every caller — so before (and
independently of) any ownership comparison — and a delete of a non-existent
id reports not-found rather than succeeding silently. -/
theorem claim_missing_id_not_found :
    (∀ (jdb : List Job) (users : List User) (u : User) (id : Nat)
       (b : JobBody) (v : JobPayload),
       validateJob b = .ok v →
       jdb.find? (fun x => x.id == id) = none →
       jobsUpdate jdb users u id b = (⟨404, false, some "Job not found", [], none⟩, jdb))
    ∧ (∀ (jdb : List Job) (u : User) (id : Nat),
       jdb.find? (fun x => x.id == id) = none →
       jobsDelete jdb u id = (⟨404, false, some "Job not found", [], none⟩, jdb)) := by
  refine ⟨?_, ?_⟩
  · intro jdb users u id b v hv hfind
    simp [jobsUpdate, hv, hfind]
  · intro jdb u id hfind
    simp [jobsDelete, hfind]

/-- Witness for C6: update and delete of id 2 in a collection holding only
id 1, by two different callers (owner-identity irrelevant). -/
theorem claim_missing_id_not_found_witness :
    jobsUpdate [jobA] [] entreUser2 2 goodJobBody =
      (⟨404, false, some "Job not found", [], none⟩, [jobA])
    ∧ jobsDelete [jobA] entreUser 2 =
      (⟨404, false, some "Job not found", [], none⟩, [jobA]) :=
  ⟨claim_missing_id_not_found.1 [jobA] [] entreUser2 2 goodJobBody
     ⟨"Farm help", "Need help on the farm", "agriculture", "Pune", "en"⟩ rfl rfl,
   claim_missing_id_not_found.2 [jobA] entreUser 2 rfl⟩

/-- An authenticated admin caller (id 2, not the owner of the sample
records, which are owned by user 1 or 7). -/
def adminUser : User := ⟨2, "Meera", "admin"⟩

/-- A scheme request body that passes `schemeSchema` validation. -/
def goodSchemeBody : SchemeBody :=
  ⟨some "Farm aid plus", some "Support for small farms", some "Smallholders only",
   some "https://g.in/a", some "en", some "agriculture"⟩

/-- C7: scheme Update and Delete require the admin role unconditionally and
never compare the caller's identity to the record's `createdBy`: any admin
caller mutates any existing scheme (its owner is quantified freely), any
non-admin caller is refused 403 by the role middleware regardless of
ownership — unlike jobs and marketplace, whose handlers refuse a concrete
non-owner, non-admin caller 403 through the ownership comparison. -/
theorem claim_schemes_admin_only_no_ownership :
    (∀ (db : List Scheme) (users : List User) (u : User) (id : Nat) (s : Scheme)
       (b : SchemeBody) (v : SchemePayload),
       u.role = "admin" →
       validateScheme b = .ok v →
       db.find? (fun x => x.id == id) = some s →
       (schemesUpdateRoute db users u id b).fst.status = 200
       ∧ (schemesUpdateRoute db users u id b).snd =
           db.map (fun t => if t.id == id then applySchemeUpdate v t else t)
       ∧ (schemesDeleteRoute db u id).fst.status = 200
       ∧ (schemesDeleteRoute db u id).snd = db.filter (fun t => !(t.id == id)))
    ∧ (∀ (db : List Scheme) (users : List User) (u : User) (id : Nat) (b : SchemeBody),
       u.role ≠ "admin" →
       (schemesUpdateRoute db users u id b).fst.status = 403
       ∧ (schemesUpdateRoute db users u id b).snd = db
       ∧ (schemesDeleteRoute db u id).fst.status = 403
       ∧ (schemesDeleteRoute db u id).snd = db)
    ∧ ((jobsUpdate [jobA] [] entreUser2 1 goodJobBody).fst.status = 403
       ∧ (marketplaceDelete [mktA] entreUser2 1).fst.status = 403) := by
  refine ⟨?_, ?_, by decide⟩
  · intro db users u id s b v hrole hv hfind
    have hrr : requireRole ["admin"] u = true := by
      simp [requireRole, hrole]
    refine ⟨?_, ?_, ?_, ?_⟩ <;>
      simp [schemesUpdateRoute, schemesDeleteRoute, hrr, schemesUpdate, schemesDelete,
            hv, hfind]
  · intro db users u id b hrole
    have hrr : requireRole ["admin"] u = false := by
      simp [requireRole, hrole]
    refine ⟨?_, ?_, ?_, ?_⟩ <;>
      simp [schemesUpdateRoute, schemesDeleteRoute, hrr, roleForbidden]

/-- Witness for C7: admin caller (id 2) updates and deletes a scheme owned
by user 1; an entrepreneur caller is refused. -/
theorem claim_schemes_admin_only_no_ownership_witness :
    ((schemesUpdateRoute [schemeA] [] adminUser 1 goodSchemeBody).fst.status = 200
     ∧ (schemesUpdateRoute [schemeA] [] adminUser 1 goodSchemeBody).snd =
         [schemeA].map (fun t => if t.id == 1 then
           applySchemeUpdate ⟨"Farm aid plus", "Support for small farms",
             "Smallholders only", "https://g.in/a", "en", "agriculture"⟩ t else t)
     ∧ (schemesDeleteRoute [schemeA] adminUser 1).fst.status = 200
     ∧ (schemesDeleteRoute [schemeA] adminUser 1).snd =
         [schemeA].filter (fun t => !(t.id == 1)))
    ∧ ((schemesUpdateRoute [schemeA] [] entreUser2 1 goodSchemeBody).fst.status = 403
       ∧ (schemesUpdateRoute [schemeA] [] entreUser2 1 goodSchemeBody).snd = [schemeA]
       ∧ (schemesDeleteRoute [schemeA] entreUser2 1).fst.status = 403
       ∧ (schemesDeleteRoute [schemeA] entreUser2 1).snd = [schemeA]) :=
  ⟨claim_schemes_admin_only_no_ownership.1 [schemeA] [] adminUser 1 schemeA
     goodSchemeBody
     ⟨"Farm aid plus", "Support for small farms", "Smallholders only",
      "https://g.in/a", "en", "agriculture"⟩ rfl rfl rfl,
   claim_schemes_admin_only_no_ownership.2.1 [schemeA] [] entreUser2 1 goodSchemeBody
     (by decide)⟩

/-- Eleven schemes that all match the search query "farm". -/
def cxSchemes : List Scheme :=
  (List.range 11).map (fun i =>
    ⟨i, "farm help " ++ toString i, "a long description", "anyone here",
     "https://g.in/s", "en", "agriculture", 1, i⟩)

/-- The oldest of the eleven (`createdAt = 0`): sorted to the very end,
past the default 10-record window. -/
def cxScheme0 : Scheme :=
  ⟨0, "farm help 0", "a long description", "anyone here", "https://g.in/s",
   "en", "agriculture", 1, 0⟩

/-- C8 counterexample: with eleven matching records and the default
page/limit, the schemes search does not return exactly the records
matching the predicate — `cxScheme0` matches and is in the collection but
is absent from the returned page (the handler windows to `limit`,
default 10). -/
theorem claim_schemes_search_exact_counterexample :
    schemeSearchFilter "farm" none cxScheme0 = true
    ∧ cxScheme0 ∈ cxSchemes
    ∧ cxScheme0 ∉ (schemesSearch cxSchemes [] "farm" none 1 10).records.map Enriched.item
    ∧ (schemesSearch cxSchemes [] "farm" none 1 10).records.length = 10
    ∧ (cxSchemes.filter (schemeSearchFilter "farm" none)).length = 11 := by
  decide

/-- C8 (amended): every record returned by the schemes search matches the
query case-insensitively in title OR description OR category, AND equals
the `language` parameter when one is supplied; and the returned records are
precisely the requested `(page, limit)` window (default 1, 10) of the
matching records in creation-descending order. -/
theorem claim_schemes_search_semantics (db : List Scheme) (users : List User)
    (query : String) (lang : Option String) (p l : Nat) :
    (∀ e ∈ (schemesSearch db users query lang p l).records,
       (ciContains e.item.title query = true
        ∨ ciContains e.item.description query = true
        ∨ ciContains e.item.category query = true)
       ∧ (∀ s, lang = some s → s ≠ "" → e.item.language = s))
    ∧ (schemesSearch db users query lang p l).records =
        (((sortDesc Scheme.createdAt (db.filter (schemeSearchFilter query lang))).drop
          ((p - 1) * l)).take l).map (enrichScheme users) := by
  constructor
  · intro e he
    simp only [schemesSearch] at he
    rcases List.mem_map.mp he with ⟨s, hs, rfl⟩
    have hf := mem_window _ _ _ _ _ _ hs
    simp only [schemeSearchFilter, Bool.and_eq_true, Bool.or_eq_true] at hf
    obtain ⟨hor, hlang⟩ := hf
    refine ⟨?_, ?_⟩
    · have : ((ciContains s.title query = true ∨ ciContains s.description query = true)
          ∨ ciContains s.category query = true) := by
        simpa [enrichScheme] using hor
      tauto
    · intro t ht hne
      subst ht
      simp only [hne, if_false] at hlang
      exact eq_of_beq hlang
  · rfl

/-- Witness for C8 at a concrete search. -/
theorem claim_schemes_search_semantics_witness :
    ((ciContains schemeA.title "farm" = true
      ∨ ciContains schemeA.description "farm" = true
      ∨ ciContains schemeA.category "farm" = true)
     ∧ schemeA.language = "en")
    ∧ (schemesSearch [schemeA] [] "farm" (some "en") 1 10).records =
        (((sortDesc Scheme.createdAt
            ([schemeA].filter (schemeSearchFilter "farm" (some "en")))).drop
          ((1 - 1) * 10)).take 10).map (enrichScheme []) := by
  have T := claim_schemes_search_semantics [schemeA] [] "farm" (some "en") 1 10
  refine ⟨?_, T.2⟩
  have hm : (⟨schemeA, none⟩ : Enriched Scheme) ∈
      (schemesSearch [schemeA] [] "farm" (some "en") 1 10).records := by
    decide
  obtain ⟨hor, hlang⟩ := T.1 ⟨schemeA, none⟩ hm
  exact ⟨hor, hlang "en" rfl (by decide)⟩

/-- C9 counterexample: a schemes search and a marketplace search, each with
a nonempty result page, whose responses carry no pagination metadata at all
(the `data` object has no `pagination` key), contradicting the claimed
List-style pagination contract. -/
theorem claim_search_pagination_counterexample :
    (schemesSearch [schemeA] [] "farm" none 1 10).records ≠ []
    ∧ (schemesSearch [schemeA] [] "farm" none 1 10).pagination = none
    ∧ (marketplaceSearch [mktA] [] "baskets" none 1 10).records ≠ []
    ∧ (marketplaceSearch [mktA] [] "baskets" none 1 10).pagination = none := by
  decide

/-- C9 (amended): the schemes and marketplace search endpoints apply the
same `(page-1)*limit` / `limit` windowing as List (defaults 1 and 10) but
return only the page of results — their responses omit the pagination
metadata object entirely. -/
theorem claim_search_windowed_without_metadata
    (db : List Scheme) (users : List User) (mdb : List Marketplace)
    (musers : List User) (query : String) (lang : Option String) (p l : Nat) :
    (schemesSearch db users query lang p l).pagination = none
    ∧ (marketplaceSearch mdb musers query lang p l).pagination = none
    ∧ (schemesSearch db users query lang p l).records =
        (((sortDesc Scheme.createdAt (db.filter (schemeSearchFilter query lang))).drop
          ((p - 1) * l)).take l).map (enrichScheme users)
    ∧ (marketplaceSearch mdb musers query lang p l).records =
        (((sortDesc Marketplace.createdAt
            (mdb.filter (marketplaceSearchFilter query lang))).drop
          ((p - 1) * l)).take l).map (enrichMarketplace musers) :=
  ⟨rfl, rfl, rfl, rfl⟩

/-- C10: a scheme or job create request whose payload fails the resource's
validator is answered 400 with message 'Validation error' and the
validator's itemized message list — one message per failing field, in
schema field order, each naming its field — and the stored collection is
returned unchanged (no write occurs). -/
theorem claim_validation_rejects_without_write
    (sdb : List Scheme) (susers : List User) (su : User) (snid snow : Nat)
    (sb : SchemeBody) (ses : List String)
    (jdb : List Job) (jusers : List User) (ju : User) (jnid jnow : Nat)
    (jb : JobBody) (jes : List String)
    (hs : validateScheme sb = .error ses)
    (hj : validateJob jb = .error jes) :
    (schemesCreate sdb susers su snid snow sb =
       (⟨400, false, some "Validation error", ses, none⟩, sdb)
     ∧ ses ≠ []
     ∧ ses = schemeErrors sb
     ∧ ∀ m ∈ ses, ∃ f ∈ (["title", "description", "eligibility", "link",
         "language", "category"] : List String), strIncl (quoted f) m = true)
    ∧ (jobsCreate jdb jusers ju jnid jnow jb =
       (⟨400, false, some "Validation error", jes, none⟩, jdb)
     ∧ jes ≠ []
     ∧ jes = jobErrors jb
     ∧ ∀ m ∈ jes, ∃ f ∈ (["title", "description", "category", "location",
         "language"] : List String), strIncl (quoted f) m = true) := by
  obtain ⟨hse, hsne⟩ := validateScheme_error_elim sb ses hs
  obtain ⟨hje, hjne⟩ := validateJob_error_elim jb jes hj
  refine ⟨⟨?_, ?_, hse, ?_⟩, ⟨?_, ?_, hje, ?_⟩⟩
  · simp [schemesCreate, hs]
  · rw [hse]; exact hsne
  · intro m hm
    exact schemeErrors_named sb m (hse ▸ hm)
  · simp [jobsCreate, hj]
  · rw [hje]; exact hjne
  · intro m hm
    exact jobErrors_named jb m (hje ▸ hm)

/-- An empty scheme request body. -/
def schemeBodyNone : SchemeBody := ⟨none, none, none, none, none, none⟩

/-- An empty job request body. -/
def jobBodyNone : JobBody := ⟨none, none, none, none, none⟩

/-- Witness for C10: the empty bodies fail every required field and the
create handlers reject them without touching the (empty) collections. -/
theorem claim_validation_rejects_without_write_witness :
    (schemesCreate [] [] adminUser 0 0 schemeBodyNone =
       (⟨400, false, some "Validation error",
         ["\"title\" is required", "\"description\" is required",
          "\"eligibility\" is required", "\"link\" is required",
          "\"language\" is required", "\"category\" is required"], none⟩, [])
     ∧ (["\"title\" is required", "\"description\" is required",
         "\"eligibility\" is required", "\"link\" is required",
         "\"language\" is required", "\"category\" is required"] : List String) ≠ []
     ∧ (["\"title\" is required", "\"description\" is required",
         "\"eligibility\" is required", "\"link\" is required",
         "\"language\" is required", "\"category\" is required"] : List String) =
         schemeErrors schemeBodyNone
     ∧ ∀ m ∈ (["\"title\" is required", "\"description\" is required",
         "\"eligibility\" is required", "\"link\" is required",
         "\"language\" is required", "\"category\" is required"] : List String),
         ∃ f ∈ (["title", "description", "eligibility", "link",
           "language", "category"] : List String), strIncl (quoted f) m = true)
    ∧ (jobsCreate [] [] entreUser 0 0 jobBodyNone =
       (⟨400, false, some "Validation error",
         ["\"title\" is required", "\"description\" is required",
          "\"category\" is required", "\"location\" is required",
          "\"language\" is required"], none⟩, [])
     ∧ (["\"title\" is required", "\"description\" is required",
         "\"category\" is required", "\"location\" is required",
         "\"language\" is required"] : List String) ≠ []
     ∧ (["\"title\" is required", "\"description\" is required",
         "\"category\" is required", "\"location\" is required",
         "\"language\" is required"] : List String) = jobErrors jobBodyNone
     ∧ ∀ m ∈ (["\"title\" is required", "\"description\" is required",
         "\"category\" is required", "\"location\" is required",
         "\"language\" is required"] : List String),
         ∃ f ∈ (["title", "description", "category", "location",
           "language"] : List String), strIncl (quoted f) m = true) :=
  claim_validation_rejects_without_write [] [] adminUser 0 0 schemeBodyNone
    ["\"title\" is required", "\"description\" is required",
     "\"eligibility\" is required", "\"link\" is required",
     "\"language\" is required", "\"category\" is required"]
    [] [] entreUser 0 0 jobBodyNone
    ["\"title\" is required", "\"description\" is required",
     "\"category\" is required", "\"location\" is required",
     "\"language\" is required"]
    rfl rfl
